import Mathlib

/-!
Shallow embedding of the motor resistance safety controller in
`motor_control.py` (the `vesc_control_safety` section of the source):
the calibration and safety constants, the clamping `set_current`
command path, the per-cycle emergency evaluation of `main_loop`, the
`shutdown_and_reel_in` procedure, the encoder-position field selection
of `read_telemetry`, and the `encoder_counts_to_meters` conversion.

Python floats are modelled as exact rationals; the spool circumference,
`math.pi * SPOOL_DIAMETER_M` in the source, is modelled over the reals
with the exact `Real.pi`.  The side effects of the control code (calls
to `set_current`, telemetry reads, sleeps) are modelled as explicit
event traces; telemetry is modelled as the stream of values successive
reads return.
-/

namespace MotorControl

/-- Safety constant `PULL_FORCE_CURRENT_THRESHOLD_A = 0.2` of the source. -/
def PULL_FORCE_CURRENT_THRESHOLD_A : ℚ := 0.2

/-- Safety constant `RPM_MOVING_THRESHOLD = 5.0` of the source. -/
def RPM_MOVING_THRESHOLD : ℚ := 5

/-- Safety constant `MAX_ALLOWED_CURRENT_A = 20.0` of the source. -/
def MAX_ALLOWED_CURRENT_A : ℚ := 20

/-- Shutdown constant `REEL_IN_CURRENT_A = -2.0` of the source (negative spins the motor inward). -/
def REEL_IN_CURRENT_A : ℚ := -2

/-- Shutdown constant `REEL_IN_STEP_DELAY = 0.1` of the source (seconds between reel-in checks). -/
def REEL_IN_STEP_DELAY : ℚ := 0.1

/-- Position constant `STOP_AT_DISTANCE_FT = 5.0` of the source. -/
def STOP_AT_DISTANCE_FT : ℚ := 5

/-- Position constant `STOP_AT_DISTANCE_M = STOP_AT_DISTANCE_FT * 0.3048` of the source. -/
def STOP_AT_DISTANCE_M : ℚ := STOP_AT_DISTANCE_FT * 0.3048

/-- Embedding of `set_current(a)`: if `abs(a) > MAX_ALLOWED_CURRENT_A` the value is
clamped with `max(min(a, MAX_ALLOWED_CURRENT_A), -MAX_ALLOWED_CURRENT_A)` and a
clamping message is printed before the (possibly clamped) value is forwarded to
the hardware.  The result is the forwarded current together with a flag recording
whether the clamping message was emitted. -/
def set_current (a : ℚ) : ℚ × Bool :=
  if |a| > MAX_ALLOWED_CURRENT_A then
    (max (min a MAX_ALLOWED_CURRENT_A) (-MAX_ALLOWED_CURRENT_A), true)
  else
    (a, false)

/-- Embedding of `stop_motor()`: it performs exactly one call `set_current(0.0)`,
so one zero-current request is issued per call.  The list is the requests issued
by a single call. -/
def stop_motor_requests : List ℚ := [0]

/-- Requests issued by two consecutive `stop_motor()` calls with no intervening
operation: the sequential composition of the traces of the two calls. -/
def stop_motor_twice_requests : List ℚ := stop_motor_requests ++ stop_motor_requests

/-- Embedding of the encoder-position selection in `read_telemetry`:
`enc_pos = getattr(values, "encoder_pos", None) or getattr(values, "abs_pos", None)`.
An absent attribute is `none`.  Python `x or y` returns `x` when `x` is truthy
(a present, nonzero number) and `y` otherwise. -/
def truthy (x : Option ℚ) : Bool :=
  match x with
  | none => false
  | some v => decide (v ≠ 0)

/-- Value of `enc_pos` computed by `read_telemetry` from the two optional
hardware fields `encoder_pos` and `abs_pos`. -/
def combined_enc_pos (encoder_pos abs_pos : Option ℚ) : Option ℚ :=
  if truthy encoder_pos then encoder_pos else abs_pos

/-- One successful telemetry sample as consumed by `main_loop`: the motor
current and rpm returned by `read_telemetry`, together with the derived linear
position `length_m = encoder_counts_to_meters(enc_pos)` (which is `None`
exactly when the encoder position `enc_pos` is `None`, since the conversion
is total on present counts).  The lengths the safety checks compare against
are modelled as exact rationals. -/
structure TelemetrySample where
  motor_current : ℚ
  rpm : ℚ
  length_m : Option ℚ
  deriving DecidableEq

/-- Emergency condition decided by one pass of the checks in `main_loop`
(the Safety Evaluator of the spec): `noCondition` is the spec value `None`. -/
inductive EmergencyCondition where
  | noCondition
  | noPullDetected
  | lineNearMinimumExtension
  deriving DecidableEq

/-- Safety evaluation performed by `main_loop` on one sample, in the order of the source: first the no-pull check
`abs(motor_current) < PULL_FORCE_CURRENT_THRESHOLD_A and abs(rpm) < RPM_MOVING_THRESHOLD`,
then, only if the position is present, the minimum-extension check
`length_m <= STOP_AT_DISTANCE_M and rpm < 0`. -/
def evaluate (motor_current rpm : ℚ) (length_m : Option ℚ) : EmergencyCondition :=
  if |motor_current| < PULL_FORCE_CURRENT_THRESHOLD_A ∧ |rpm| < RPM_MOVING_THRESHOLD then
    .noPullDetected
  else
    match length_m with
    | some l =>
        if l ≤ STOP_AT_DISTANCE_M ∧ rpm < 0 then .lineNearMinimumExtension else .noCondition
    | none => .noCondition

/-- Outcome of one iteration of the `while` loop of `main_loop`: the cycle was
skipped because telemetry was unavailable, the loop tripped an emergency
condition (stop, shutdown, `break`), or it ran normally and continues. -/
inductive CycleOutcome where
  | skipped
  | tripped (c : EmergencyCondition)
  | normal
  deriving DecidableEq

/-- Observable effect of one iteration of the `while` loop of `main_loop`:
its outcome, the `set_current` requests the iteration itself issues (the
requests of an invoked shutdown sequence are not included here), and the
argument of `shutdown_and_reel_in` when the iteration invokes it. -/
structure CycleEffect where
  outcome : CycleOutcome
  commands : List ℚ
  shutdownWith : Option ℚ
  deriving DecidableEq

/-- One iteration of the `while` loop of `main_loop` with held current
`user_selected_current`.  `t = none` models `read_telemetry` returning
`(None, None, None)`: the iteration prints a diagnostic, sleeps and
`continue`s.  Otherwise the two emergency checks run in order; on a trip the
iteration calls `stop_motor()` (one `set_current(0.0)` request), invokes
`shutdown_and_reel_in(user_selected_current)` and `break`s; otherwise it
re-issues the held current and sleeps. -/
def mainLoopCycle (user_selected_current : ℚ) (t : Option TelemetrySample) : CycleEffect :=
  match t with
  | none => ⟨.skipped, [], none⟩
  | some s =>
    match evaluate s.motor_current s.rpm s.length_m with
    | .noPullDetected => ⟨.tripped .noPullDetected, [0], some user_selected_current⟩
    | .lineNearMinimumExtension =>
        ⟨.tripped .lineNearMinimumExtension, [0], some user_selected_current⟩
    | .noCondition => ⟨.normal, [user_selected_current], none⟩

/-- Event in the observable trace of `shutdown_and_reel_in`: a `set_current`
request, a telemetry read performed by the reel-in loop (recording the derived
length, `none` when encoder feedback is lost), or a `time.sleep`. -/
inductive Ev where
  | cmd (a : ℚ)
  | readPos (r : Option ℚ)
  | sleep (s : ℚ)
  deriving DecidableEq

/-- Values of the `set_current` requests appearing in a trace, in order. -/
def cmds (evs : List Ev) : List ℚ :=
  evs.filterMap fun e =>
    match e with
    | .cmd a => some a
    | _ => none

/-- Number of telemetry reads in a trace. -/
def numReads (evs : List Ev) : ℕ :=
  (evs.filterMap fun e =>
    match e with
    | .readPos r => some r
    | _ => none).length

/-- Result of the reel-in `while` loop: its event trace and the iteration index
at which it exited (`none` when the fuel ran out with the loop still running,
modelling an observation window in which the loop has not terminated). -/
structure ReelInResult where
  events : List Ev
  exitIndex : Option ℕ
  deriving DecidableEq

/-- The reel-in `while True` loop of `shutdown_and_reel_in`.  Iteration `i`
reads the `i`-th telemetry sample of the stream `f`, modelled by the derived
length `encoder_counts_to_meters(enc_pos)` it yields; `f i = none` models a
read without encoder position, for which the two abort branches of the source
(`enc_pos is None` and `length_m is None`) coincide, because the conversion
returns `None` exactly on `None`.  The loop body: read; if the position is
absent, abort (break); if the length is at most 0.01 m, treat as fully
retracted (break); otherwise sleep `REEL_IN_STEP_DELAY` and iterate. -/
def reelInLoop (f : ℕ → Option ℚ) : ℕ → ℕ → ReelInResult
  | _, 0 => ⟨[], none⟩
  | i, fuel + 1 =>
    match f i with
    | none => ⟨[.readPos none], some i⟩
    | some l =>
      if l ≤ 0.01 then ⟨[.readPos (some l)], some i⟩
      else
        let r := reelInLoop f (i + 1) fuel
        ⟨.readPos (some l) :: .sleep REEL_IN_STEP_DELAY :: r.events, r.exitIndex⟩

/-- Ramp-down phase of `shutdown_and_reel_in`:
`for a in [current_level_a * f for f in (0.6, 0.3, 0.1)]: set_current(a); time.sleep(0.3)`. -/
def rampEvents (current_level_a : ℚ) : List Ev :=
  ([0.6, 0.3, 0.1].map fun fr => current_level_a * fr).flatMap fun a => [.cmd a, .sleep 0.3]

/-- Embedding of `shutdown_and_reel_in(current_level_a)` reading its telemetry
from the stream `f`: ramp down, issue the single `set_current(REEL_IN_CURRENT_A)`
request, run the reel-in loop, and — once the loop exits — `stop_motor()`
(one `set_current(0.0)` request).  Result: the event trace and whether the
reel-in loop exited within the observed fuel; when it has not exited, the
final stop has not yet been reached and is absent from the trace. -/
def shutdown_and_reel_in (current_level_a : ℚ) (f : ℕ → Option ℚ) (fuel : ℕ) :
    List Ev × Bool :=
  match (reelInLoop f 0 fuel).exitIndex with
  | some _ =>
      (rampEvents current_level_a ++ [.cmd REEL_IN_CURRENT_A] ++
        (reelInLoop f 0 fuel).events ++ [.cmd 0], true)
  | none =>
      (rampEvents current_level_a ++ [.cmd REEL_IN_CURRENT_A] ++
        (reelInLoop f 0 fuel).events, false)

/-- Calibration constant `ENC_COUNTS_PER_REV = 8192` of the source, as a real
number for the unit conversion. -/
def ENC_COUNTS_PER_REV : ℝ := 8192

/-- Geometry constant `SPOOL_DIAMETER_M = 0.027` of the source. -/
def SPOOL_DIAMETER_M : ℝ := 0.027

/-- Geometry constant `SPOOL_CIRCUMFERENCE_M = math.pi * SPOOL_DIAMETER_M` of
the source, with the exact `Real.pi`. -/
noncomputable def SPOOL_CIRCUMFERENCE_M : ℝ := Real.pi * SPOOL_DIAMETER_M

/-- Embedding of `encoder_counts_to_meters(enc_counts)`: `None` for a missing
count, otherwise `revs = enc_counts / ENC_COUNTS_PER_REV` followed by
`length_m = revs * SPOOL_CIRCUMFERENCE_M`. -/
noncomputable def encoder_counts_to_meters (enc_counts : Option ℝ) : Option ℝ :=
  match enc_counts with
  | none => none
  | some c => some (c / ENC_COUNTS_PER_REV * SPOOL_CIRCUMFERENCE_M)

/-- Telemetry stream losing encoder feedback at the first read. -/
def lostFeedbackStream : ℕ → Option ℚ := fun _ => none

/-- Telemetry stream reading a derived length of 1 m at iteration 0 and losing
encoder feedback from iteration 1 on: the reel-in loop runs two iterations. -/
def twoStepStream : ℕ → Option ℚ := fun i => if i = 0 then some 1 else none

end MotorControl

namespace MotorControl

/-- C3: for every requested current `a` with `|a|` above `MAX_ALLOWED_CURRENT_A`,
`set_current` forwards exactly `+MAX_ALLOWED_CURRENT_A` when `a` is positive and
exactly `-MAX_ALLOWED_CURRENT_A` when `a` is negative, and signals that clamping
occurred; for `|a| ≤ MAX_ALLOWED_CURRENT_A` the value is forwarded unmodified
with no clamping signal. -/
theorem set_current_clamps (a : ℚ) :
    (MAX_ALLOWED_CURRENT_A < a → set_current a = (MAX_ALLOWED_CURRENT_A, true)) ∧
    (a < -MAX_ALLOWED_CURRENT_A → set_current a = (-MAX_ALLOWED_CURRENT_A, true)) ∧
    (|a| ≤ MAX_ALLOWED_CURRENT_A → set_current a = (a, false)) := by
  refine ⟨fun h => ?_, fun h => ?_, fun h => ?_⟩
  · have habs : MAX_ALLOWED_CURRENT_A < |a| := lt_of_lt_of_le h (le_abs_self a)
    have hmin : min a MAX_ALLOWED_CURRENT_A = MAX_ALLOWED_CURRENT_A := min_eq_right h.le
    have hmax : max MAX_ALLOWED_CURRENT_A (-MAX_ALLOWED_CURRENT_A) = MAX_ALLOWED_CURRENT_A := by
      norm_num [MAX_ALLOWED_CURRENT_A]
    simp [set_current, habs, hmin, hmax]
  · have ha : a < 0 := lt_trans h (by norm_num [MAX_ALLOWED_CURRENT_A])
    have habs : MAX_ALLOWED_CURRENT_A < |a| := by
      rw [abs_of_neg ha]; linarith
    have hmin : min a MAX_ALLOWED_CURRENT_A = a := by
      apply min_eq_left
      have hlt : (-MAX_ALLOWED_CURRENT_A : ℚ) < MAX_ALLOWED_CURRENT_A := by
        norm_num [MAX_ALLOWED_CURRENT_A]
      linarith
    have hmax : max a (-MAX_ALLOWED_CURRENT_A) = -MAX_ALLOWED_CURRENT_A := max_eq_right h.le
    simp [set_current, habs, hmin, hmax]
  · simp [set_current, not_lt.mpr h]

/-- Witness for C3: concrete requests 25 A, -25 A and 5 A. -/
theorem set_current_clamps_witness :
    set_current 25 = (MAX_ALLOWED_CURRENT_A, true) ∧
    set_current (-25) = (-MAX_ALLOWED_CURRENT_A, true) ∧
    set_current 5 = (5, false) :=
  ⟨(set_current_clamps 25).1 (by decide),
   (set_current_clamps (-25)).2.1 (by decide),
   (set_current_clamps 5).2.2 (by decide)⟩

/-- C7 counterexample: two consecutive `stop_motor()` calls issue the
zero-current command twice (once per call), not exactly once as claimed. -/
theorem stop_twice_issues_two_commands :
    stop_motor_twice_requests = [0, 0] ∧ stop_motor_twice_requests.count 0 ≠ 1 := by
  decide

/-- C7 amended: each `stop_motor()` call issues exactly one zero-current command,
so two consecutive calls issue it twice; the call is idempotent in effect (the
last commanded current after the second call is 0, the same as after the first)
but the command itself is re-issued on every call. -/
theorem stop_idempotent_effect :
    stop_motor_requests = [0] ∧
    stop_motor_twice_requests = stop_motor_requests ++ stop_motor_requests ∧
    stop_motor_twice_requests.count 0 = 2 ∧
    stop_motor_twice_requests.getLast? = stop_motor_requests.getLast? := by
  decide

/-- C10 counterexample: with the primary field `encoder_pos` reading 0 and the
fallback field `abs_pos` present and also 0, `read_telemetry` reports the
position 0, not `None` as the claim states. -/
theorem zero_primary_with_zero_fallback :
    combined_enc_pos (some 0) (some 0) = some 0 ∧ combined_enc_pos (some 0) (some 0) ≠ none := by
  decide

/-- C10 amended: because the two fields are combined with a truthiness `or`, a
primary `encoder_pos` reading of exactly 0 is never itself forwarded — the
result is then whatever the `abs_pos` fallback yields, and in particular `None`
(position unknown, indistinguishable from lost feedback) when the fallback is
absent; a combined reading of 0 can only come from the fallback field. -/
theorem zero_primary_defers_to_fallback :
    (∀ a : Option ℚ, combined_enc_pos (some 0) a = a) ∧
    combined_enc_pos (some 0) none = none ∧
    (∀ e a : Option ℚ, combined_enc_pos e a = some 0 → a = some 0) := by
  refine ⟨fun a => ?_, rfl, fun e a h => ?_⟩
  · simp [combined_enc_pos, truthy]
  · rcases e with _ | v
    · simpa [combined_enc_pos, truthy] using h
    · by_cases hv : v = 0
      · subst hv; simpa [combined_enc_pos, truthy] using h
      · simp [combined_enc_pos, truthy, hv] at h

/-- Unfolding lemma: with telemetry present, the cycle effect is determined by
the evaluated emergency condition. -/
lemma mainLoopCycle_some (u : ℚ) (s : TelemetrySample) :
    mainLoopCycle u (some s) =
      match evaluate s.motor_current s.rpm s.length_m with
      | .noPullDetected => ⟨.tripped .noPullDetected, [0], some u⟩
      | .lineNearMinimumExtension => ⟨.tripped .lineNearMinimumExtension, [0], some u⟩
      | .noCondition => ⟨.normal, [u], none⟩ := rfl

/-- Evaluation result when the no-pull condition holds. -/
lemma evaluate_noPull {mc rpm : ℚ} {len : Option ℚ}
    (h : |mc| < PULL_FORCE_CURRENT_THRESHOLD_A ∧ |rpm| < RPM_MOVING_THRESHOLD) :
    evaluate mc rpm len = .noPullDetected := by
  unfold evaluate; rw [if_pos h]

/-- Evaluation result with no-pull failing and no encoder position. -/
lemma evaluate_none_noCond {mc rpm : ℚ}
    (h : ¬(|mc| < PULL_FORCE_CURRENT_THRESHOLD_A ∧ |rpm| < RPM_MOVING_THRESHOLD)) :
    evaluate mc rpm none = .noCondition := by
  unfold evaluate; rw [if_neg h]

/-- Evaluation result with no-pull failing and the minimum-extension breach holding. -/
lemma evaluate_lineNear {mc rpm l : ℚ}
    (h : ¬(|mc| < PULL_FORCE_CURRENT_THRESHOLD_A ∧ |rpm| < RPM_MOVING_THRESHOLD))
    (h2 : l ≤ STOP_AT_DISTANCE_M ∧ rpm < 0) :
    evaluate mc rpm (some l) = .lineNearMinimumExtension := by
  unfold evaluate; rw [if_neg h]
  show (if l ≤ STOP_AT_DISTANCE_M ∧ rpm < 0 then
      EmergencyCondition.lineNearMinimumExtension else .noCondition) = _
  rw [if_pos h2]

/-- Evaluation result with both checks failing. -/
lemma evaluate_noCond {mc rpm l : ℚ}
    (h : ¬(|mc| < PULL_FORCE_CURRENT_THRESHOLD_A ∧ |rpm| < RPM_MOVING_THRESHOLD))
    (h2 : ¬(l ≤ STOP_AT_DISTANCE_M ∧ rpm < 0)) :
    evaluate mc rpm (some l) = .noCondition := by
  unfold evaluate; rw [if_neg h]
  show (if l ≤ STOP_AT_DISTANCE_M ∧ rpm < 0 then
      EmergencyCondition.lineNearMinimumExtension else .noCondition) = _
  rw [if_neg h2]

/-- The no-pull result characterizes its condition exactly. -/
lemma evaluate_noPull_iff (mc rpm : ℚ) (len : Option ℚ) :
    evaluate mc rpm len = .noPullDetected ↔
      |mc| < PULL_FORCE_CURRENT_THRESHOLD_A ∧ |rpm| < RPM_MOVING_THRESHOLD := by
  by_cases h : |mc| < PULL_FORCE_CURRENT_THRESHOLD_A ∧ |rpm| < RPM_MOVING_THRESHOLD
  · exact iff_of_true (evaluate_noPull h) h
  · refine iff_of_false ?_ h
    rcases len with _ | l
    · simp [evaluate_none_noCond h]
    · by_cases h2 : l ≤ STOP_AT_DISTANCE_M ∧ rpm < 0
      · simp [evaluate_lineNear h h2]
      · simp [evaluate_noCond h h2]

/-- The minimum-extension result characterizes its condition exactly (the
no-pull check is evaluated first and must fail). -/
lemma evaluate_lineNear_iff (mc rpm : ℚ) (len : Option ℚ) :
    evaluate mc rpm len = .lineNearMinimumExtension ↔
      ¬(|mc| < PULL_FORCE_CURRENT_THRESHOLD_A ∧ |rpm| < RPM_MOVING_THRESHOLD) ∧
        ∃ l, len = some l ∧ l ≤ STOP_AT_DISTANCE_M ∧ rpm < 0 := by
  by_cases h : |mc| < PULL_FORCE_CURRENT_THRESHOLD_A ∧ |rpm| < RPM_MOVING_THRESHOLD
  · refine iff_of_false ?_ ?_
    · simp [@evaluate_noPull mc rpm len h]
    · rintro ⟨hn, _⟩; exact hn h
  · rcases len with _ | l
    · refine iff_of_false ?_ ?_
      · simp [evaluate_none_noCond h]
      · rintro ⟨_, l, hl, _⟩; exact Option.noConfusion hl
    · by_cases h2 : l ≤ STOP_AT_DISTANCE_M ∧ rpm < 0
      · exact iff_of_true (evaluate_lineNear h h2) ⟨h, l, rfl, h2⟩
      · refine iff_of_false ?_ ?_
        · simp [evaluate_noCond h h2]
        · rintro ⟨_, l2, hl2, hrest⟩
          rw [Option.some.injEq] at hl2
          subst hl2
          exact h2 hrest

/-- Tripping on the cycle level matches the evaluated condition. -/
lemma cycle_outcome_eq_iff (u mc rpm : ℚ) (len : Option ℚ) (c : EmergencyCondition) :
    (c = .noPullDetected ∨ c = .lineNearMinimumExtension) →
    ((mainLoopCycle u (some ⟨mc, rpm, len⟩)).outcome = .tripped c ↔
      evaluate mc rpm len = c) := by
  intro hc
  rw [mainLoopCycle_some]
  cases hE : evaluate mc rpm len <;> rcases hc with rfl | rfl <;> simp

/-- C1: with telemetry available, the no-pull emergency trips exactly when
`|motor_current| < PULL_FORCE_CURRENT_THRESHOLD_A` and `|rpm| < RPM_MOVING_THRESHOLD`;
in particular for motor current 0.05 and rpm 1 (thresholds 0.2 and 5) the cycle
trips `noPullDetected`, issues the stop request 0 and invokes the shutdown
sequence with the held current. -/
theorem noPull_condition_exact (u mc rpm : ℚ) (len : Option ℚ) :
    ((mainLoopCycle u (some ⟨mc, rpm, len⟩)).outcome = .tripped .noPullDetected ↔
      |mc| < PULL_FORCE_CURRENT_THRESHOLD_A ∧ |rpm| < RPM_MOVING_THRESHOLD) ∧
    mainLoopCycle u (some ⟨0.05, 1, len⟩) =
      ⟨.tripped .noPullDetected, [0], some u⟩ := by
  constructor
  · exact (cycle_outcome_eq_iff u mc rpm len _ (Or.inl rfl)).trans
      (evaluate_noPull_iff mc rpm len)
  · have h : |(0.05 : ℚ)| < PULL_FORCE_CURRENT_THRESHOLD_A ∧ |(1 : ℚ)| < RPM_MOVING_THRESHOLD := by
      constructor <;> norm_num [PULL_FORCE_CURRENT_THRESHOLD_A, RPM_MOVING_THRESHOLD, abs_lt]
    have hE : evaluate (0.05 : ℚ) 1 len = .noPullDetected := evaluate_noPull h
    simp only [mainLoopCycle_some, hE]

/-- C2: with telemetry available and the no-pull condition not holding, the
minimum-extension emergency trips exactly when the position is present,
`length_m ≤ STOP_AT_DISTANCE_M` and `rpm < 0`; in particular (with motor
current 5 so that no-pull does not hold) it trips for length 1 at rpm -3 and
the cycle runs normally for length 2 at rpm -3. -/
theorem lineNear_condition_exact (u mc rpm : ℚ) (len : Option ℚ) :
    ((mainLoopCycle u (some ⟨mc, rpm, len⟩)).outcome = .tripped .lineNearMinimumExtension ↔
      ¬(|mc| < PULL_FORCE_CURRENT_THRESHOLD_A ∧ |rpm| < RPM_MOVING_THRESHOLD) ∧
        ∃ l, len = some l ∧ l ≤ STOP_AT_DISTANCE_M ∧ rpm < 0) ∧
    mainLoopCycle u (some ⟨5, -3, some 1⟩) =
      ⟨.tripped .lineNearMinimumExtension, [0], some u⟩ ∧
    mainLoopCycle u (some ⟨5, -3, some 2⟩) = ⟨.normal, [u], none⟩ := by
  have h1 : ¬(|(5 : ℚ)| < PULL_FORCE_CURRENT_THRESHOLD_A ∧ |(-3 : ℚ)| < RPM_MOVING_THRESHOLD) := by
    norm_num [PULL_FORCE_CURRENT_THRESHOLD_A, RPM_MOVING_THRESHOLD, abs_lt]
  refine ⟨?_, ?_, ?_⟩
  · exact (cycle_outcome_eq_iff u mc rpm len _ (Or.inr rfl)).trans
      (evaluate_lineNear_iff mc rpm len)
  · have h2 : (1 : ℚ) ≤ STOP_AT_DISTANCE_M ∧ (-3 : ℚ) < 0 := by
      norm_num [STOP_AT_DISTANCE_M, STOP_AT_DISTANCE_FT]
    have hE : evaluate (5 : ℚ) (-3) (some 1) = .lineNearMinimumExtension :=
      evaluate_lineNear h1 h2
    simp only [mainLoopCycle_some, hE]
  · have h2 : ¬((2 : ℚ) ≤ STOP_AT_DISTANCE_M ∧ (-3 : ℚ) < 0) := by
      norm_num [STOP_AT_DISTANCE_M, STOP_AT_DISTANCE_FT]
    have hE : evaluate (5 : ℚ) (-3) (some 2) = .noCondition := evaluate_noCond h1 h2
    simp only [mainLoopCycle_some, hE]

/-- C8: when the telemetry read fails, the cycle is skipped: no current request
is issued, the shutdown sequence is not invoked, and the loop just continues
(no state change). -/
theorem telemetry_failure_skips_cycle (u : ℚ) :
    mainLoopCycle u none = ⟨.skipped, [], none⟩ := rfl

/-- Witness for C10 amended: concrete primary reading 0 with fallback 0. -/
theorem zero_primary_defers_to_fallback_witness :
    combined_enc_pos (some 0) none = none ∧ (some (0 : ℚ) = some 0) :=
  ⟨zero_primary_defers_to_fallback.2.1,
   zero_primary_defers_to_fallback.2.2 (some 0) (some 0) (by decide)⟩

@[simp] lemma cmds_nil : cmds [] = [] := rfl

@[simp] lemma cmds_cmd_cons (a : ℚ) (l : List Ev) : cmds (.cmd a :: l) = a :: cmds l := rfl

@[simp] lemma cmds_readPos_cons (r : Option ℚ) (l : List Ev) : cmds (.readPos r :: l) = cmds l := rfl

@[simp] lemma cmds_sleep_cons (s : ℚ) (l : List Ev) : cmds (.sleep s :: l) = cmds l := rfl

@[simp] lemma cmds_append (l₁ l₂ : List Ev) : cmds (l₁ ++ l₂) = cmds l₁ ++ cmds l₂ := by
  simp [cmds]

@[simp] lemma numReads_nil : numReads [] = 0 := rfl

@[simp] lemma numReads_cmd_cons (a : ℚ) (l : List Ev) : numReads (.cmd a :: l) = numReads l := rfl

@[simp] lemma numReads_readPos_cons (r : Option ℚ) (l : List Ev) :
    numReads (.readPos r :: l) = numReads l + 1 := rfl

@[simp] lemma numReads_sleep_cons (s : ℚ) (l : List Ev) : numReads (.sleep s :: l) = numReads l := rfl

@[simp] lemma numReads_append (l₁ l₂ : List Ev) :
    numReads (l₁ ++ l₂) = numReads l₁ + numReads l₂ := by
  simp [numReads]

/-- Command requests of the ramp-down phase. -/
lemma cmds_rampEvents (a : ℚ) : cmds (rampEvents a) = [a * 0.6, a * 0.3, a * 0.1] := rfl

/-- The ramp-down phase performs no telemetry read. -/
lemma numReads_rampEvents (a : ℚ) : numReads (rampEvents a) = 0 := rfl

/-- The reel-in loop body issues no `set_current` request. -/
lemma cmds_reelInLoop (f : ℕ → Option ℚ) :
    ∀ fuel i, cmds (reelInLoop f i fuel).events = [] := by
  intro fuel
  induction fuel with
  | zero => intro i; simp [reelInLoop]
  | succ fuel ih =>
    intro i
    cases hf : f i with
    | none => simp [reelInLoop, hf]
    | some l =>
      by_cases hl : l ≤ 0.01
      · simp [reelInLoop, hf, hl]
      · simp [reelInLoop, hf, hl, ih (i + 1)]

/-- When the reel-in loop exits at index `k`, the exit lies in the fuel window,
one of the two break conditions holds at `k`, and no break condition holds at
any earlier index in the window. -/
lemma reelInLoop_exit_bounds (f : ℕ → Option ℚ) :
    ∀ fuel i k, (reelInLoop f i fuel).exitIndex = some k →
      i ≤ k ∧ k < i + fuel ∧
      (f k = none ∨ ∃ l, f k = some l ∧ l ≤ 0.01) ∧
      ∀ j, i ≤ j → j < k → ∃ l, f j = some l ∧ ¬(l ≤ 0.01) := by
  intro fuel
  induction fuel with
  | zero => intro i k h; simp [reelInLoop] at h
  | succ fuel ih =>
    intro i k h
    cases hf : f i with
    | none =>
      simp [reelInLoop, hf] at h
      subst h
      exact ⟨le_refl i, by omega, Or.inl hf, fun j h1 h2 => absurd h2 (by omega)⟩
    | some l =>
      by_cases hl : l ≤ 0.01
      · simp [reelInLoop, hf, hl] at h
        subst h
        exact ⟨le_refl i, by omega, Or.inr ⟨l, hf, hl⟩, fun j h1 h2 => absurd h2 (by omega)⟩
      · simp [reelInLoop, hf, hl] at h
        obtain ⟨h1, h2, h3, h4⟩ := ih (i + 1) k h
        refine ⟨by omega, by omega, h3, fun j hj1 hj2 => ?_⟩
        rcases Nat.eq_or_lt_of_le hj1 with rfl | hj3
        · exact ⟨l, hf, hl⟩
        · exact h4 j hj3 hj2

/-- When a break condition holds at some index inside the fuel window, the
reel-in loop exits at that index or earlier. -/
lemma reelInLoop_reaches (f : ℕ → Option ℚ) :
    ∀ fuel i n, i ≤ n → n < i + fuel →
      (f n = none ∨ ∃ l, f n = some l ∧ l ≤ 0.01) →
      ∃ k, (reelInLoop f i fuel).exitIndex = some k ∧ k ≤ n := by
  intro fuel
  induction fuel with
  | zero => intro i n h1 h2 _; omega
  | succ fuel ih =>
    intro i n h1 h2 hcond
    cases hf : f i with
    | none => exact ⟨i, by simp [reelInLoop, hf], h1⟩
    | some l =>
      by_cases hl : l ≤ 0.01
      · exact ⟨i, by simp [reelInLoop, hf, hl], h1⟩
      · have hne : i ≠ n := by
          rintro rfl
          rcases hcond with hc | ⟨l2, hl2, hle⟩
          · rw [hf] at hc; exact Option.noConfusion hc
          · rw [hf] at hl2
            rw [Option.some.injEq] at hl2
            subst hl2
            exact hl hle
        obtain ⟨k, hk, hkn⟩ := ih (i + 1) n (by omega) (by omega) hcond
        exact ⟨k, by simp [reelInLoop, hf, hl, hk], hkn⟩

/-- The reel-in loop performs one telemetry read per iteration: when it exits
at index `k` having started at `i`, it read `k + 1 - i` samples. -/
lemma numReads_reelInLoop (f : ℕ → Option ℚ) :
    ∀ fuel i k, (reelInLoop f i fuel).exitIndex = some k →
      numReads (reelInLoop f i fuel).events = k + 1 - i := by
  intro fuel
  induction fuel with
  | zero => intro i k h; simp [reelInLoop] at h
  | succ fuel ih =>
    intro i k h
    cases hf : f i with
    | none =>
      simp [reelInLoop, hf] at h ⊢
      omega
    | some l =>
      by_cases hl : l ≤ 0.01
      · simp [reelInLoop, hf, hl] at h ⊢
        omega
      · simp [reelInLoop, hf, hl] at h ⊢
        have hik := (reelInLoop_exit_bounds f fuel (i + 1) k h).1
        rw [ih (i + 1) k h]
        omega

/-- Command requests of the whole shutdown sequence: the three ramp values,
the single reel-in current, and — exactly when the loop exited — the final
stop request. -/
lemma shutdown_cmds (a : ℚ) (f : ℕ → Option ℚ) (fuel : ℕ) :
    cmds (shutdown_and_reel_in a f fuel).1 =
      [a * 0.6, a * 0.3, a * 0.1, REEL_IN_CURRENT_A] ++
        (if (shutdown_and_reel_in a f fuel).2 then [0] else []) := by
  unfold shutdown_and_reel_in
  cases h : (reelInLoop f 0 fuel).exitIndex <;>
    simp [cmds_rampEvents, cmds_reelInLoop]

/-- C4: whenever the telemetry stream at some read reports a missing encoder
position or a derived length of at most 0.01 m, the reel-in loop terminates:
it exits at the first index where one of those two conditions holds (at every
earlier read the length was present and above 0.01), the shutdown sequence
completes, and its trace ends with the final stop request of 0 A after the
ramp and reel-in requests. -/
theorem reel_in_terminates_and_stops (a : ℚ) (f : ℕ → Option ℚ) (n : ℕ)
    (h : f n = none ∨ ∃ l, f n = some l ∧ l ≤ 0.01) :
    ∃ k, k ≤ n ∧ (reelInLoop f 0 (n + 1)).exitIndex = some k ∧
      (f k = none ∨ ∃ l, f k = some l ∧ l ≤ 0.01) ∧
      (∀ j, j < k → ∃ l, f j = some l ∧ ¬(l ≤ 0.01)) ∧
      (shutdown_and_reel_in a f (n + 1)).2 = true ∧
      cmds (shutdown_and_reel_in a f (n + 1)).1 =
        [a * 0.6, a * 0.3, a * 0.1, REEL_IN_CURRENT_A, 0] := by
  obtain ⟨k, hk, hkn⟩ := reelInLoop_reaches f (n + 1) 0 n (Nat.zero_le n) (by omega) h
  obtain ⟨-, -, hcond, hmin⟩ := reelInLoop_exit_bounds f (n + 1) 0 k hk
  have hterm : (shutdown_and_reel_in a f (n + 1)).2 = true := by
    unfold shutdown_and_reel_in
    rw [hk]
  have hcmds : cmds (shutdown_and_reel_in a f (n + 1)).1 =
      [a * 0.6, a * 0.3, a * 0.1, REEL_IN_CURRENT_A, 0] := by
    rw [shutdown_cmds, hterm]
    rfl
  exact ⟨k, hkn, hk, hcond, fun j hj => hmin j (Nat.zero_le j) hj, hterm, hcmds⟩

/-- Witness for C4: a stream losing encoder feedback at the first read. -/
theorem reel_in_terminates_and_stops_witness :
    (lostFeedbackStream 0 = none ∨ ∃ l, lostFeedbackStream 0 = some l ∧ l ≤ 0.01) ∧
    (∃ k, k ≤ 0 ∧ (reelInLoop lostFeedbackStream 0 (0 + 1)).exitIndex = some k ∧
      (lostFeedbackStream k = none ∨ ∃ l, lostFeedbackStream k = some l ∧ l ≤ 0.01) ∧
      (∀ j, j < k → ∃ l, lostFeedbackStream j = some l ∧ ¬(l ≤ 0.01)) ∧
      (shutdown_and_reel_in 5 lostFeedbackStream (0 + 1)).2 = true ∧
      cmds (shutdown_and_reel_in 5 lostFeedbackStream (0 + 1)).1 =
        [5 * 0.6, 5 * 0.3, 5 * 0.1, REEL_IN_CURRENT_A, 0]) :=
  ⟨Or.inl rfl, reel_in_terminates_and_stops 5 lostFeedbackStream 0 (Or.inl rfl)⟩

/-- C5 counterexample: on a stream where the reel-in loop runs two iterations
(two telemetry reads), the shutdown trace contains the reel-in current request
exactly once — it is issued once before the loop, not once per iteration. -/
theorem reel_in_command_not_per_iteration :
    numReads (shutdown_and_reel_in 5 twoStepStream 10).1 = 2 ∧
    (cmds (shutdown_and_reel_in 5 twoStepStream 10).1).count REEL_IN_CURRENT_A = 1 := by
  have h1 : ¬((1 : ℚ) ≤ 0.01) := by norm_num
  have e1 : reelInLoop twoStepStream 1 9 = ⟨[.readPos none], some 1⟩ := by
    simp [reelInLoop, twoStepStream]
  have e0 : reelInLoop twoStepStream 0 10 =
      ⟨[.readPos (some 1), .sleep REEL_IN_STEP_DELAY, .readPos none], some 1⟩ := by
    rw [show (10 : ℕ) = 9 + 1 from rfl]
    simp [reelInLoop, twoStepStream, h1, e1]
  have etr : shutdown_and_reel_in 5 twoStepStream 10 =
      (rampEvents 5 ++ [.cmd REEL_IN_CURRENT_A] ++
        [.readPos (some 1), .sleep REEL_IN_STEP_DELAY, .readPos none] ++ [.cmd 0], true) := by
    unfold shutdown_and_reel_in
    rw [e0]
  constructor
  · rw [etr]
    simp [numReads_rampEvents]
  · rw [etr]
    simp only [cmds_append, cmds_rampEvents, cmds_cmd_cons, cmds_readPos_cons,
      cmds_sleep_cons, cmds_nil]
    norm_num [List.count_cons, List.count_nil, REEL_IN_CURRENT_A]

/-- C5 amended: during the reel-in phase the controller issues the
`REEL_IN_CURRENT_A` request exactly once, before the first loop iteration (the
fourth request of the shutdown trace, after the three ramp requests); the loop
itself issues no current request and re-reads telemetry exactly once per
iteration at `REEL_IN_STEP_DELAY`. -/
theorem reel_in_issued_once_reads_each_iteration (a : ℚ) (f : ℕ → Option ℚ) (fuel : ℕ) :
    cmds (shutdown_and_reel_in a f fuel).1 =
      [a * 0.6, a * 0.3, a * 0.1, REEL_IN_CURRENT_A] ++
        (if (shutdown_and_reel_in a f fuel).2 then [0] else []) ∧
    ∀ k, (reelInLoop f 0 fuel).exitIndex = some k →
      numReads (shutdown_and_reel_in a f fuel).1 = k + 1 := by
  refine ⟨shutdown_cmds a f fuel, fun k hk => ?_⟩
  have hnr := numReads_reelInLoop f fuel 0 k hk
  unfold shutdown_and_reel_in
  rw [hk]
  simp [numReads_rampEvents, hnr]

/-- Witness for C5 amended: the loop exits at its first iteration on encoder
feedback loss, after a single telemetry read. -/
theorem reel_in_issued_once_reads_each_iteration_witness :
    numReads (shutdown_and_reel_in 5 lostFeedbackStream 1).1 = 0 + 1 :=
  (reel_in_issued_once_reads_each_iteration 5 lostFeedbackStream 1).2 0 rfl

/-- C6: the ramp-down phase issues exactly the requests
`a * 0.6, a * 0.3, a * 0.1`, in this order, as the first three requests of the
shutdown trace, with the reel-in phase beginning only afterwards (the fourth
request is `REEL_IN_CURRENT_A`); for a held current of 5 A the ramp requests
are 3 A, 1.5 A, 0.5 A. -/
theorem ramp_down_commands (a : ℚ) (f : ℕ → Option ℚ) (fuel : ℕ) :
    (cmds (shutdown_and_reel_in a f fuel).1).take 3 = [a * 0.6, a * 0.3, a * 0.1] ∧
    (cmds (shutdown_and_reel_in a f fuel).1).take 4 =
      [a * 0.6, a * 0.3, a * 0.1, REEL_IN_CURRENT_A] ∧
    (cmds (shutdown_and_reel_in 5 f fuel).1).take 3 = [(3 : ℚ), 1.5, 0.5] := by
  refine ⟨?_, ?_, ?_⟩ <;> rw [shutdown_cmds]
  · simp
  · simp
  · norm_num

/-- The spool circumference `math.pi * 0.027` is positive. -/
lemma spool_circumference_pos : 0 < SPOOL_CIRCUMFERENCE_M := by
  have := Real.pi_pos
  have hd : (0 : ℝ) < SPOOL_DIAMETER_M := by norm_num [SPOOL_DIAMETER_M]
  exact mul_pos Real.pi_pos hd

/-- C9: for every present count `c` the conversion returns
`(c / ENC_COUNTS_PER_REV) * SPOOL_CIRCUMFERENCE_M` (total on present counts,
no failure mode), it maps 0 counts to 0 m, and the returned length is strictly
monotonically increasing in the count. -/
theorem encoder_conversion_exact_monotone :
    (∀ c : ℝ, encoder_counts_to_meters (some c) =
        some (c / ENC_COUNTS_PER_REV * SPOOL_CIRCUMFERENCE_M)) ∧
    encoder_counts_to_meters (some 0) = some 0 ∧
    ∀ c₁ c₂ : ℝ, c₁ < c₂ →
      c₁ / ENC_COUNTS_PER_REV * SPOOL_CIRCUMFERENCE_M <
        c₂ / ENC_COUNTS_PER_REV * SPOOL_CIRCUMFERENCE_M := by
  refine ⟨fun c => rfl, ?_, fun c₁ c₂ h => ?_⟩
  · simp [encoder_counts_to_meters]
  · have hN : (0 : ℝ) < ENC_COUNTS_PER_REV := by norm_num [ENC_COUNTS_PER_REV]
    have hdiv : c₁ / ENC_COUNTS_PER_REV < c₂ / ENC_COUNTS_PER_REV :=
      (div_lt_div_iff_of_pos_right hN).mpr h
    exact mul_lt_mul_of_pos_right hdiv spool_circumference_pos

/-- Witness for C9: counts 0 and 1 yield strictly increasing lengths. -/
theorem encoder_conversion_exact_monotone_witness :
    encoder_counts_to_meters (some 0) = some 0 ∧
    (0 : ℝ) / ENC_COUNTS_PER_REV * SPOOL_CIRCUMFERENCE_M <
      1 / ENC_COUNTS_PER_REV * SPOOL_CIRCUMFERENCE_M :=
  ⟨encoder_conversion_exact_monotone.2.1,
   encoder_conversion_exact_monotone.2.2 0 1 zero_lt_one⟩

end MotorControl
